import Mathlib

/-!
A shallow embedding of the admission-control and retry subsystem of the
DownloadQueue repository, together with proofs about it.

The embedding follows the source:
* `OverflowQueue` models `download_queue.download_queue.OverflowQueue`
  (its `_queue` list is the `List R` argument of each method);
* `DownloadQueue.GateState` models the mutable state of
  `download_queue.download_queue.DownloadQueue` and the operations
  `_add_or_queue` (submission) and `remove` (worker completion);
* `Downloader.download` models the control flow of
  `download_queue.downloader.Downloader.download`;
* `repeat_on_error_wrapped` models the decorator
  `download_queue.decorators.repeat_on_error`;
* `semaphore_queue_init` models the constructor of
  `download_queue.queue.DownloadQueue`.
-/

namespace DQSpec

/-- Error raised by `OverflowQueue._check_raise_empty`. Its class
(`OverflowQueueIsEmptyException`) lives in the repository's `exceptions`
module; here it is an opaque error value. -/
inductive OverflowQueueIsEmptyException where
  | mk
  deriving DecidableEq, Repr

/-- Model of Python `list.pop(i)`: remove and return the element at index
`i`, or `none` when the index is out of range. -/
def list_pop {R : Type} (q : List R) (i : Nat) : Option (R × List R) :=
  if h : i < q.length then some (q.get ⟨i, h⟩, q.eraseIdx i) else none

namespace OverflowQueue

variable {R : Type}

/-- Method `OverflowQueue.enqueue`: `self._queue.append(item)`. -/
def enqueue (q : List R) (item : R) : List R :=
  q ++ [item]

/-- Method `OverflowQueue.is_empty`: `len(self) == 0`. -/
def is_empty (q : List R) : Bool :=
  q.length == 0

/-- Property `OverflowQueue.queue_pointer`:
`None if self.empty else len(self) - 1`. -/
def queue_pointer (q : List R) : Option Nat :=
  if is_empty q then none else some (q.length - 1)

/-- Method `OverflowQueue.dequeue`: `self._check_raise_empty()` (raising when
empty), then `self._queue.pop(self.queue_pointer)`. -/
def dequeue (q : List R) : Except OverflowQueueIsEmptyException (R × List R) :=
  if is_empty q then
    Except.error OverflowQueueIsEmptyException.mk
  else
    match queue_pointer q with
    | some i =>
      match list_pop q i with
      | some res => Except.ok res
      | none => Except.error OverflowQueueIsEmptyException.mk
    | none => Except.error OverflowQueueIsEmptyException.mk

/-- Value returned by `OverflowQueue.dequeue_or_none`: Python `None`, the
bound method object `self.dequeue` (an attribute access, not a call), or — to
make "never returns a request" expressible — a held request. -/
inductive PyReturnValue (R : Type) where
  | none
  | boundMethodDequeue
  | request (r : R)
  deriving DecidableEq, Repr

/-- Method `OverflowQueue.dequeue_or_none`:
`return None if self.empty else self.dequeue`. The expression `self.dequeue`
is an attribute access that evaluates to the bound method object without
calling it, so the queue is not touched; the pair returned here is the
produced value together with the (unchanged) queue contents. -/
def dequeue_or_none (q : List R) : PyReturnValue R × List R :=
  if is_empty q then (PyReturnValue.none, q) else (PyReturnValue.boundMethodDequeue, q)

end OverflowQueue

namespace DownloadQueue

variable {R : Type}

/-- Mutable state of `download_queue.download_queue.DownloadQueue`:
`_queue_contents` (the live download threads, elements of an abstract type
`R`) and the `_queue` list inside `_overflow_queue`. The capacity
`self.length` is fixed at construction and passed separately. -/
structure GateState (R : Type) where
  queue_contents : List R
  overflow_queue : List R
  deriving DecidableEq, Repr

/-- Live-worker count of the gate: `len(self._queue_contents)`. -/
def GateState.liveCount (st : GateState R) : Nat :=
  st.queue_contents.length

/-- Method `DownloadQueue._is_ready`:
`len(self._queue_contents) != len(self)`, where `len(self)` returns the
capacity `self.length`. -/
def is_ready (length : Int) (st : GateState R) : Bool :=
  (st.queue_contents.length : Int) != length

/-- Method `DownloadQueue._add`: append the thread to `_queue_contents` and
start it. -/
def add (st : GateState R) (dt : R) : GateState R :=
  { st with queue_contents := st.queue_contents ++ [dt] }

/-- Method `DownloadQueue._add_or_queue`: when `self.ready`, admit and start
the thread; otherwise enqueue it into the overflow queue. -/
def add_or_queue (length : Int) (st : GateState R) (dt : R) : GateState R :=
  if is_ready length st then add st dt
  else { st with overflow_queue := OverflowQueue.enqueue st.overflow_queue dt }

/-- Method `DownloadQueue.remove` (the worker-completion handler):
`self._queue_contents.remove(dt)` deletes the first occurrence of `dt`, then
`if not(self._overflow_queue.empty): self._add(self._overflow_queue.dequeue())`. -/
def remove [DecidableEq R] (st : GateState R) (dt : R) : GateState R :=
  let contents := st.queue_contents.erase dt
  if OverflowQueue.is_empty st.overflow_queue then
    { queue_contents := contents, overflow_queue := st.overflow_queue }
  else
    match OverflowQueue.dequeue st.overflow_queue with
    | Except.ok (r, rest) => { queue_contents := contents ++ [r], overflow_queue := rest }
    | Except.error _ => { queue_contents := contents, overflow_queue := st.overflow_queue }

/-- States of a `DownloadQueue` of capacity `length` reachable from the
freshly constructed state (`_queue_contents = []`, empty overflow queue) by
any interleaving of submissions (`add_or_queue`) and worker completions
(`remove`; only a live worker reports completion). -/
inductive Reachable [DecidableEq R] (length : Int) : GateState R → Prop where
  | init : Reachable length ⟨[], []⟩
  | submit (st : GateState R) (dt : R) :
      Reachable length st → Reachable length (add_or_queue length st dt)
  | complete (st : GateState R) (dt : R) :
      Reachable length st → dt ∈ st.queue_contents → Reachable length (remove st dt)

/-- Method `DownloadQueue._all_complete`:
`len(self._queue_contents) == 0 and len(self._overflow_queue) == 0`. -/
def all_complete (st : GateState R) : Bool :=
  st.queue_contents.length == 0 && st.overflow_queue.length == 0

/-- Busy-wait loop of `DownloadQueue.wait_to_finish`
(`while not(self._all_complete()): pass`) starting from iteration `i`.
Worker threads mutate the gate concurrently, so the loop observes a trace of
gate states, one per iteration; `fuel` bounds how many iterations are
observed. The result is the iteration at which the loop exits, or `none`
when the loop is still spinning after `fuel` iterations. -/
def wait_to_finish_from (trace : Nat → GateState R) (i : Nat) : Nat → Option Nat
  | 0 => none
  | fuel + 1 =>
    if all_complete (trace i) then some i
    else wait_to_finish_from trace (i + 1) fuel

/-- Method `DownloadQueue.wait_to_finish`: run the busy-wait loop from its
first iteration. -/
def wait_to_finish (trace : Nat → GateState R) (fuel : Nat) : Option Nat :=
  wait_to_finish_from trace 0 fuel

end DownloadQueue

namespace Downloader

/-- Terminal outcome of one invocation of `Downloader._download` (the Fetch
operation as wrapped by the retry decorator): success, a raised exception, or
a raised `KeyboardInterrupt`. A fault carries an opaque numeric identity. -/
inductive FetchOutcome where
  | success
  | failure (f : Nat)
  | interrupt
  deriving DecidableEq, Repr

/-- Fields of `download_queue.downloader.Downloader` that `download` reads or
writes: the `complete` flag, the `block_on_error` flag and whether
`self.comhook` holds a (truthy) completion hook. -/
structure DownloaderState where
  complete : Bool
  block_on_error : Bool
  has_comhook : Bool
  deriving DecidableEq, Repr

/-- Exception escaping a call of `Downloader.download` to its caller. -/
inductive DownloadRaise where
  | runtimeError
  | exc (f : Nat)
  | interrupt
  deriving DecidableEq, Repr

/-- Record of one execution of `Downloader.download`: the downloader state it
leaves behind, how many times it called `self.comhook`, whether it reached
the Fetch (`self._download()`) at all, and which exception (if any) escaped
to the caller. -/
structure DownloadRun where
  state : DownloaderState
  comhook_calls : Nat
  fetch_attempted : Bool
  raised : Option DownloadRaise
  deriving DecidableEq, Repr

/-- Method `Downloader.download`. The source first raises `RuntimeError` when
`self.complete` is already set, then runs

  try: self._download()
  except (KeyboardInterrupt, Exception) as e: self._error_handler(e)
  else: self._pass_handler()
  finally:
      if self.comhook: self.comhook(self)

where `Downloader._error_handler` re-raises `e` exactly when
`self.block_on_error`, and `Downloader._pass_handler` sets
`self.complete = True`. The `finally` block runs on every path after the
initial guard, including the re-raising one. -/
def download (st : DownloaderState) (fetch : FetchOutcome) : DownloadRun :=
  if st.complete then
    { state := st, comhook_calls := 0, fetch_attempted := false,
      raised := some DownloadRaise.runtimeError }
  else
    let hook : Nat := if st.has_comhook then 1 else 0
    match fetch with
    | FetchOutcome.success =>
      { state := { st with complete := true }, comhook_calls := hook,
        fetch_attempted := true, raised := none }
    | FetchOutcome.failure f =>
      { state := st, comhook_calls := hook, fetch_attempted := true,
        raised := if st.block_on_error then some (DownloadRaise.exc f) else none }
    | FetchOutcome.interrupt =>
      { state := st, comhook_calls := hook, fetch_attempted := true,
        raised := if st.block_on_error then some DownloadRaise.interrupt else none }

end Downloader

/-- Outcome of the `idx`-th invocation (0-indexed) of the function wrapped by
`download_queue.decorators.repeat_on_error`: a returned value, a raised
exception (with an opaque numeric fault identity), or a raised
`KeyboardInterrupt`. -/
inductive AttemptOutcome where
  | ok (v : Nat)
  | exc (f : Nat)
  | interrupt
  deriving DecidableEq, Repr

/-- Terminal outcome of one call of the wrapped function: the returned value;
a raised exception together with the fault of every attempt (each retry is
raised while the previous attempt's exception is being handled, so the
terminal exception's context chain holds them all — listed here in attempt
order); or a raised `KeyboardInterrupt`. -/
inductive RetryOutcome where
  | success (v : Nat)
  | raisedExc (faults : List Nat)
  | raisedInterrupt
  deriving DecidableEq, Repr

/-- Trace of one call of the `repeat_on_error`-wrapped function: how many
times the wrapped `func` was invoked, how many `time.sleep(attempt_delay)`
waits were performed, and the terminal outcome. -/
structure RetryTrace where
  calls : Nat
  waits : Nat
  outcome : RetryOutcome
  deriving DecidableEq, Repr

/-- Helper `extract_attr` of `repeat_on_error`:
`getattr(self, identifier) if identifier and hasattr(self, identifier) else default`.
The first argument is `some v` exactly when an identifier was configured and
`self` has it as an attribute with value `v`. -/
def extract_attr (selfAttr : Option Int) (default : Int) : Int :=
  match selfAttr with
  | some v => v
  | none => default

/-- Function `recursively_invoke_func` inside `repeat_on_error.wrapped`,
recursing on the `attempt` counter (the `attempt <= 0` branch is terminal;
`idx` numbers the invocations of `func`):

  try: return func(self, *args, **kwargs)
  except KeyboardInterrupt: raise
  except:
      if attempt <= 0: log; raise
      else: time.sleep(attempt_delay); return recursively_invoke_func(attempt-1)
-/
def recursively_invoke_func (op : Nat → AttemptOutcome) (idx : Nat) : Nat → RetryTrace
  | 0 =>
    match op idx with
    | AttemptOutcome.ok v => ⟨1, 0, RetryOutcome.success v⟩
    | AttemptOutcome.exc f => ⟨1, 0, RetryOutcome.raisedExc [f]⟩
    | AttemptOutcome.interrupt => ⟨1, 0, RetryOutcome.raisedInterrupt⟩
  | attempt + 1 =>
    match op idx with
    | AttemptOutcome.ok v => ⟨1, 0, RetryOutcome.success v⟩
    | AttemptOutcome.exc f =>
      let rest := recursively_invoke_func op (idx + 1) attempt
      { calls := rest.calls + 1, waits := rest.waits + 1,
        outcome :=
          match rest.outcome with
          | RetryOutcome.raisedExc faults => RetryOutcome.raisedExc (f :: faults)
          | o => o }
    | AttemptOutcome.interrupt => ⟨1, 0, RetryOutcome.raisedInterrupt⟩

/-- Body of `wrapped` in `repeat_on_error`: resolve
`attempt_count = max(extract_attr(self, *_attempt_count), 1)` and
`attempt_delay = max(extract_attr(self, *_attempt_delay), 0)`, then run
`recursively_invoke_func(attempt_count - 1)`. The delay value does not
affect the recorded trace (each wait sleeps `attempt_delay`). -/
def repeat_on_error_wrapped (attrCount attrDelay : Option Int)
    (defCount defDelay : Int) (op : Nat → AttemptOutcome) : RetryTrace :=
  let attempt_count : Int := max (extract_attr attrCount defCount) 1
  let _attempt_delay : Int := max (extract_attr attrDelay defDelay) 0
  recursively_invoke_func op 0 (attempt_count - 1).toNat

/-- Effective attempt count of a wrapped call:
`max(extract_attr(self, *_attempt_count), 1)` as a natural number. -/
def effective_attempt_count (attrCount : Option Int) (defCount : Int) : Nat :=
  (max (extract_attr attrCount defCount) 1).toNat

/-- Error raised during construction of `download_queue.queue.DownloadQueue`:
the standard library `BoundedSemaphore` raises `ValueError` for a negative
initial value. -/
inductive PyInitError where
  | valueError
  deriving DecidableEq, Repr

/-- Fields of `download_queue.queue.DownloadQueue` as set up by its
constructor: the fixed capacity `max_length`, the live count `length`, and
the current values of the two bounded semaphores. -/
structure SemaphoreQueueState where
  max_length : Int
  length : Int
  downloads_s : Nat
  available_s : Nat
  deriving DecidableEq, Repr

/-- Constructor `download_queue.queue.DownloadQueue.__init__(length)`:
`BoundedSemaphore(length)` raises `ValueError` exactly when `length < 0`
(there is no capacity-lower-bound check of its own); otherwise `_downloads_s`
is created with `length` permits and depleted to 0 by the
`for X in range(length): self._downloads_s.acquire(False)` loop, while
`_available_s` keeps its `length` permits, and `self.length` starts at 0. -/
def semaphore_queue_init (length : Int) : Except PyInitError SemaphoreQueueState :=
  if length < 0 then Except.error PyInitError.valueError
  else
    Except.ok { max_length := length, length := 0,
                downloads_s := 0, available_s := length.toNat }

/-- Constructor `download_queue.download_queue.DownloadQueue.__init__`:
stores the capacity `queue_span` and fresh empty containers. It performs no
validation of the capacity and has no raising path. -/
def legacy_queue_init (R : Type) (queue_span : Int) :
    Except PyInitError (Int × DownloadQueue.GateState R) :=
  Except.ok (queue_span, { queue_contents := [], overflow_queue := [] })

/-!  Helper lemmas. -/

/-- Effective attempt count is at least one (the `max(..., 1)` clamp). -/
theorem effective_attempt_count_pos (attrCount : Option Int) (defCount : Int) :
    1 ≤ effective_attempt_count attrCount defCount := by
  unfold effective_attempt_count
  rcases le_total (extract_attr attrCount defCount) 1 with hle | hle
  · rw [max_eq_right hle]
    decide
  · rw [max_eq_left hle]
    omega

/-- Unfolding of the wrapped call to the recursion on the effective attempt
count minus one. -/
theorem repeat_on_error_wrapped_eq (attrCount attrDelay : Option Int)
    (defCount defDelay : Int) (op : Nat → AttemptOutcome) :
    repeat_on_error_wrapped attrCount attrDelay defCount defDelay op =
      recursively_invoke_func op 0 (effective_attempt_count attrCount defCount - 1) := by
  have harg : ((max (extract_attr attrCount defCount) 1 : Int) - 1).toNat
      = effective_attempt_count attrCount defCount - 1 := by
    unfold effective_attempt_count
    rcases le_total (extract_attr attrCount defCount) 1 with hle | hle
    · rw [max_eq_right hle]
      decide
    · rw [max_eq_left hle]
      omega
  show recursively_invoke_func op 0 ((max (extract_attr attrCount defCount) 1 : Int) - 1).toNat
      = recursively_invoke_func op 0 (effective_attempt_count attrCount defCount - 1)
  rw [harg]

/-- Decomposition of a fault-history map over an initial range into its first
fault and the shifted remainder. -/
theorem range_map_shift (F : Nat → Nat) (idx n : Nat) :
    (List.range (n + 1)).map (fun j => F (idx + j)) =
      F idx :: (List.range n).map (fun j => F (idx + 1 + j)) := by
  rw [List.range_succ_eq_map]
  simp only [List.map_cons, Nat.add_zero, List.map_map]
  refine congrArg _ (List.map_congr_left ?_)
  intro a _
  simp only [Function.comp_apply, Nat.succ_eq_add_one]
  exact congrArg F (by omega)

/-- Trace of the recursion when every attempt it can make fails: with fuel
`fuel` it makes `fuel + 1` calls, waits `fuel` times, and raises carrying the
faults of all `fuel + 1` attempts in attempt order. -/
theorem recursively_invoke_func_all_fail (op : Nat → AttemptOutcome) (F : Nat → Nat)
    (fuel : Nat) :
    ∀ idx, (∀ j, j ≤ fuel → op (idx + j) = AttemptOutcome.exc (F (idx + j))) →
      recursively_invoke_func op idx fuel =
        ⟨fuel + 1, fuel,
          RetryOutcome.raisedExc ((List.range (fuel + 1)).map fun j => F (idx + j))⟩ := by
  induction fuel with
  | zero =>
    intro idx h
    have h0 := h 0 (Nat.le_refl 0)
    rw [Nat.add_zero] at h0
    simp [recursively_invoke_func, h0, List.range_succ]
  | succ fuel ih =>
    intro idx h
    have h0 := h 0 (Nat.zero_le _)
    rw [Nat.add_zero] at h0
    have hrec := ih (idx + 1) (fun j hj => by
      have hh := h (j + 1) (Nat.succ_le_succ hj)
      rwa [show idx + (j + 1) = idx + 1 + j by omega] at hh)
    simp only [recursively_invoke_func, h0, hrec]
    rw [range_map_shift F idx (fuel + 1)]

/-- Trace of the recursion when attempts `0..m-1` (relative to `idx`) fail
and attempt `m` succeeds, with at least `m` retries of fuel left: `m + 1`
calls, `m` waits, and the success value is returned. -/
theorem recursively_invoke_func_succeeds_at (op : Nat → AttemptOutcome) (v : Nat)
    (m : Nat) :
    ∀ fuel idx, m ≤ fuel →
      (∀ j, j < m → ∃ f, op (idx + j) = AttemptOutcome.exc f) →
      op (idx + m) = AttemptOutcome.ok v →
      recursively_invoke_func op idx fuel = ⟨m + 1, m, RetryOutcome.success v⟩ := by
  induction m with
  | zero =>
    intro fuel idx _ _ hok
    rw [Nat.add_zero] at hok
    cases fuel <;> simp [recursively_invoke_func, hok]
  | succ m ih =>
    intro fuel idx hm hfail hok
    cases fuel with
    | zero => omega
    | succ fuel =>
      obtain ⟨f0, hf0⟩ := hfail 0 (Nat.succ_pos m)
      rw [Nat.add_zero] at hf0
      have hrec := ih fuel (idx + 1) (by omega)
        (fun j hj => by
          obtain ⟨f, hf⟩ := hfail (j + 1) (by omega)
          exact ⟨f, by rwa [show idx + (j + 1) = idx + 1 + j by omega] at hf⟩)
        (by rwa [show idx + (m + 1) = idx + 1 + m by omega] at hok)
      simp [recursively_invoke_func, hf0, hrec]

/-- Trace of the recursion when attempts `0..m-1` (relative to `idx`) fail
and attempt `m` raises `KeyboardInterrupt`: `m + 1` calls, `m` waits, and the
interrupt propagates. -/
theorem recursively_invoke_func_interrupt_at (op : Nat → AttemptOutcome) (m : Nat) :
    ∀ fuel idx, m ≤ fuel →
      (∀ j, j < m → ∃ f, op (idx + j) = AttemptOutcome.exc f) →
      op (idx + m) = AttemptOutcome.interrupt →
      recursively_invoke_func op idx fuel = ⟨m + 1, m, RetryOutcome.raisedInterrupt⟩ := by
  induction m with
  | zero =>
    intro fuel idx _ _ hint
    rw [Nat.add_zero] at hint
    cases fuel <;> simp [recursively_invoke_func, hint]
  | succ m ih =>
    intro fuel idx hm hfail hint
    cases fuel with
    | zero => omega
    | succ fuel =>
      obtain ⟨f0, hf0⟩ := hfail 0 (Nat.succ_pos m)
      rw [Nat.add_zero] at hf0
      have hrec := ih fuel (idx + 1) (by omega)
        (fun j hj => by
          obtain ⟨f, hf⟩ := hfail (j + 1) (by omega)
          exact ⟨f, by rwa [show idx + (j + 1) = idx + 1 + j by omega] at hf⟩)
        (by rwa [show idx + (m + 1) = idx + 1 + m by omega] at hint)
      simp [recursively_invoke_func, hf0, hrec]

/-- Characterisation of the loop condition `_all_complete`: it holds exactly
when the live count is zero and the overflow queue is empty. -/
theorem all_complete_iff {R : Type} (st : DownloadQueue.GateState R) :
    DownloadQueue.all_complete st = true ↔
      st.liveCount = 0 ∧ st.overflow_queue = [] := by
  simp [DownloadQueue.all_complete, DownloadQueue.GateState.liveCount,
    List.length_eq_zero]

/-- Soundness of the busy-wait loop: when it exits at iteration `n`, the
completion condition held there and at no earlier observed iteration. -/
theorem wait_to_finish_from_sound {R : Type} (trace : Nat → DownloadQueue.GateState R)
    (fuel : Nat) :
    ∀ i n, DownloadQueue.wait_to_finish_from trace i fuel = some n →
      DownloadQueue.all_complete (trace n) = true ∧ i ≤ n ∧
      ∀ m, i ≤ m → m < n → DownloadQueue.all_complete (trace m) = false := by
  induction fuel with
  | zero =>
    intro i n h
    simp [DownloadQueue.wait_to_finish_from] at h
  | succ fuel ih =>
    intro i n h
    rw [DownloadQueue.wait_to_finish_from] at h
    cases hc : DownloadQueue.all_complete (trace i) with
    | true =>
      rw [hc] at h
      simp at h
      subst h
      exact ⟨hc, Nat.le_refl _, fun m h1 h2 => absurd h2 (by omega)⟩
    | false =>
      rw [hc] at h
      simp at h
      obtain ⟨h1, h2, h3⟩ := ih (i + 1) n h
      refine ⟨h1, by omega, fun m hm1 hm2 => ?_⟩
      rcases Nat.eq_or_lt_of_le hm1 with heq | hlt
      · rwa [← heq]
      · exact h3 m hlt hm2

/-- Progress of the busy-wait loop: when the completion condition holds at an
observed iteration within the fuel bound, the loop exits at that iteration or
an earlier one. -/
theorem wait_to_finish_from_complete {R : Type} (trace : Nat → DownloadQueue.GateState R)
    (fuel : Nat) :
    ∀ i m, m < fuel → DownloadQueue.all_complete (trace (i + m)) = true →
      ∃ n, DownloadQueue.wait_to_finish_from trace i fuel = some n ∧ n ≤ i + m := by
  induction fuel with
  | zero =>
    intro i m hm
    omega
  | succ fuel ih =>
    intro i m hm hc
    cases hic : DownloadQueue.all_complete (trace i) with
    | true =>
      refine ⟨i, ?_, by omega⟩
      rw [DownloadQueue.wait_to_finish_from, hic]
      simp
    | false =>
      cases m with
      | zero =>
        rw [Nat.add_zero] at hc
        rw [hc] at hic
        cases hic
      | succ m =>
        obtain ⟨n, hn, hle⟩ := ih (i + 1) m (by omega)
          (by rwa [show i + 1 + m = i + (m + 1) by omega])
        refine ⟨n, ?_, by omega⟩
        rw [DownloadQueue.wait_to_finish_from, hic]
        simpa using hn

/-!  Claim theorems. -/

/-- C1: for every gate constructed with capacity `C >= 1` and every sequence
of submit and worker-completion operations, the live count satisfies
`0 <= liveCount <= C`: a submission starts a worker only when the gate is
ready (its live count differs from, hence is below, the capacity) and
otherwise buffers the request in the overflow queue, and a completion that
promotes a buffered request first frees the completing worker's slot. -/
theorem gate_liveCount_never_exceeds_capacity {R : Type} [DecidableEq R]
    (length : Int) (st : DownloadQueue.GateState R)
    (hcap : 1 ≤ length) (h : DownloadQueue.Reachable length st) :
    (0 : Int) ≤ (st.liveCount : Int) ∧ (st.liveCount : Int) ≤ length := by
  refine ⟨Int.natCast_nonneg _, ?_⟩
  induction h with
  | init =>
    simp [DownloadQueue.GateState.liveCount]
    omega
  | submit st dt hst ih =>
    unfold DownloadQueue.add_or_queue
    by_cases hr : DownloadQueue.is_ready length st
    · rw [if_pos hr]
      have hne : (st.queue_contents.length : Int) ≠ length := by
        simpa [DownloadQueue.is_ready, bne_iff_ne] using hr
      unfold DownloadQueue.add
      simp only [DownloadQueue.GateState.liveCount, List.length_append,
        List.length_cons, List.length_nil] at *
      omega
    · rw [if_neg hr]
      simpa [DownloadQueue.GateState.liveCount] using ih
  | complete st dt hst hmem ih =>
    have hpos : 0 < st.queue_contents.length :=
      List.length_pos.mpr (List.ne_nil_of_mem hmem)
    have herase : (st.queue_contents.erase dt).length = st.queue_contents.length - 1 :=
      List.length_erase_of_mem hmem
    unfold DownloadQueue.remove
    by_cases he : OverflowQueue.is_empty st.overflow_queue
    · rw [if_pos he]
      simp only [DownloadQueue.GateState.liveCount, herase] at *
      omega
    · rw [if_neg he]
      cases hd : OverflowQueue.dequeue st.overflow_queue with
      | ok pr =>
        obtain ⟨r, rest⟩ := pr
        simp only [DownloadQueue.GateState.liveCount, List.length_append,
          List.length_cons, List.length_nil, herase] at *
        omega
      | error e =>
        simp only [DownloadQueue.GateState.liveCount, herase] at *
        omega

/-- Witness for C1: with capacity 1, after two submissions (the second of
which overflows), the live count is between 0 and 1. -/
theorem gate_liveCount_never_exceeds_capacity_witness :
    (0 : Int) ≤ ((DownloadQueue.add_or_queue 1
        (DownloadQueue.add_or_queue 1 (⟨[], []⟩ : DownloadQueue.GateState Nat) 0) 1).liveCount : Int) ∧
    (((DownloadQueue.add_or_queue 1
        (DownloadQueue.add_or_queue 1 (⟨[], []⟩ : DownloadQueue.GateState Nat) 0) 1).liveCount : Int) ≤ 1) :=
  gate_liveCount_never_exceeds_capacity 1 _ (by norm_num)
    (DownloadQueue.Reachable.submit _ 1
      (DownloadQueue.Reachable.submit _ 0 DownloadQueue.Reachable.init))

/-- C2: for every terminating execution of `Downloader.download` on a
not-yet-completed downloader whose completion hook is set, the hook is
invoked exactly once — whether the wrapped fetch succeeds, fails, or raises
an interrupt, and whether or not `block_on_error` re-raises the fault. -/
theorem downloader_calls_comhook_exactly_once (st : Downloader.DownloaderState)
    (fetch : Downloader.FetchOutcome)
    (hnc : st.complete = false) (hh : st.has_comhook = true) :
    (Downloader.download st fetch).comhook_calls = 1 := by
  cases fetch <;> simp [Downloader.download, hnc, hh]

/-- Witness for C2: a failing fetch under `block_on_error` still calls the
hook exactly once. -/
theorem downloader_calls_comhook_exactly_once_witness :
    (Downloader.download ⟨false, true, true⟩ (Downloader.FetchOutcome.failure 3)).comhook_calls = 1 :=
  downloader_calls_comhook_exactly_once ⟨false, true, true⟩ _ rfl rfl

/-- C10: invoking `Downloader.download` when `self.complete` is already set
raises `RuntimeError` before the `try`/`finally` block: the fetch is not
attempted, the completion hook is not invoked, and the downloader state is
unchanged. -/
theorem download_raises_when_already_complete (st : Downloader.DownloaderState)
    (fetch : Downloader.FetchOutcome) (hc : st.complete = true) :
    Downloader.download st fetch =
      { state := st, comhook_calls := 0, fetch_attempted := false,
        raised := some Downloader.DownloadRaise.runtimeError } := by
  simp [Downloader.download, hc]

/-- Witness for C10: a completed downloader raises and changes nothing. -/
theorem download_raises_when_already_complete_witness :
    Downloader.download ⟨true, false, true⟩ Downloader.FetchOutcome.success =
      { state := ⟨true, false, true⟩, comhook_calls := 0, fetch_attempted := false,
        raised := some Downloader.DownloadRaise.runtimeError } :=
  download_raises_when_already_complete ⟨true, false, true⟩ _ rfl

/-- C8: on a non-empty overflow queue, `dequeue` removes and returns the
most-recently-added held request (LIFO): after enqueueing any requests and
then `r`, a dequeue returns `r` and leaves the earlier requests. -/
theorem overflow_dequeue_pops_most_recent {R : Type} (q : List R) (r : R) :
    OverflowQueue.dequeue (OverflowQueue.enqueue q r) = Except.ok (r, q) := by
  have hemp : OverflowQueue.is_empty (q ++ [r]) = false := by
    simp [OverflowQueue.is_empty]
  have herase : (q ++ [r]).eraseIdx q.length = q := by
    rw [List.eraseIdx_append_of_length_le (Nat.le_refl _)]
    simp
  unfold OverflowQueue.enqueue OverflowQueue.dequeue OverflowQueue.queue_pointer list_pop
  simp [hemp, herase, List.getElem_concat_length]

/-- C9: `dequeue_or_none` never mutates the overflow queue and never returns
a held request: on an empty queue it returns `None`, and on a non-empty queue
it returns the bound method object `self.dequeue` without calling it. -/
theorem dequeue_or_none_leaves_queue_unchanged {R : Type} (q : List R) (r : R) :
    (OverflowQueue.dequeue_or_none q).2 = q ∧
    (OverflowQueue.dequeue_or_none q).1 ≠ OverflowQueue.PyReturnValue.request r ∧
    ((OverflowQueue.dequeue_or_none q).1 = OverflowQueue.PyReturnValue.none ↔ q = []) := by
  cases q <;> simp [OverflowQueue.dequeue_or_none, OverflowQueue.is_empty]

/-- C3: with effective attempt count `N` (always at least 1), an operation
that fails on every attempt is invoked exactly `N` times with exactly `N - 1`
waits and the terminal failure is surfaced; an operation that succeeds on
attempt `k <= N` is invoked exactly `k` times, the success value is returned,
and no wait follows attempt `k` (exactly `k - 1` waits occur). -/
theorem repeat_on_error_attempt_and_wait_counts
    (attrCount attrDelay : Option Int) (defCount defDelay : Int)
    (op : Nat → AttemptOutcome) (F : Nat → Nat) (k v N : Nat)
    (hN : N = effective_attempt_count attrCount defCount) :
    1 ≤ N ∧
    ((∀ i, i < N → op i = AttemptOutcome.exc (F i)) →
      repeat_on_error_wrapped attrCount attrDelay defCount defDelay op =
        ⟨N, N - 1, RetryOutcome.raisedExc ((List.range N).map F)⟩) ∧
    (1 ≤ k → k ≤ N → (∀ i, i < k - 1 → op i = AttemptOutcome.exc (F i)) →
      op (k - 1) = AttemptOutcome.ok v →
      repeat_on_error_wrapped attrCount attrDelay defCount defDelay op =
        ⟨k, k - 1, RetryOutcome.success v⟩) := by
  subst hN
  have h1 := effective_attempt_count_pos attrCount defCount
  refine ⟨h1, ?_, ?_⟩
  · intro hfail
    rw [repeat_on_error_wrapped_eq]
    have hall := recursively_invoke_func_all_fail op F
      (effective_attempt_count attrCount defCount - 1) 0
      (fun j hj => by rw [Nat.zero_add]; exact hfail j (by omega))
    rw [hall]
    have hN1 : effective_attempt_count attrCount defCount - 1 + 1 =
        effective_attempt_count attrCount defCount := by omega
    simp [hN1]
  · intro hk hkN hfail hok
    rw [repeat_on_error_wrapped_eq]
    have hsucc := recursively_invoke_func_succeeds_at op v (k - 1)
      (effective_attempt_count attrCount defCount - 1) 0 (by omega)
      (fun j hj => ⟨F j, by rw [Nat.zero_add]; exact hfail j hj⟩)
      (by rw [Nat.zero_add]; exact hok)
    rw [hsucc, show k - 1 + 1 = k by omega]

/-- Witness for C3: with attempt count 3, an always-failing operation runs 3
times with 2 waits, and an operation failing once then succeeding runs twice
with 1 wait and returns the value. -/
theorem repeat_on_error_attempt_and_wait_counts_witness :
    repeat_on_error_wrapped (some 3) (some 0) 10 3 (fun i => AttemptOutcome.exc i) =
      ⟨3, 2, RetryOutcome.raisedExc [0, 1, 2]⟩ ∧
    repeat_on_error_wrapped (some 3) (some 0) 10 3
        (fun i => if i < 1 then AttemptOutcome.exc i else AttemptOutcome.ok 7) =
      ⟨2, 1, RetryOutcome.success 7⟩ := by
  constructor
  · have h := (repeat_on_error_attempt_and_wait_counts (some 3) (some 0) 10 3
      (fun i => AttemptOutcome.exc i) (fun i => i) 1 0 3 (by decide)).2.1
      (fun i _ => rfl)
    exact h.trans (by decide)
  · have h := (repeat_on_error_attempt_and_wait_counts (some 3) (some 0) 10 3
      (fun i => if i < 1 then AttemptOutcome.exc i else AttemptOutcome.ok 7)
      (fun i => i) 2 7 3 (by decide)).2.2
      (by decide) (by decide)
      (fun i hi => by
        have hi0 : i = 0 := by omega
        subst hi0
        rfl)
      rfl
    exact h.trans (by decide)

/-- C4: when every one of the `N` attempts fails, the terminal failure
surfaced by the retry wrapper carries the fault of every attempt (all `N`
faults, in attempt order), not only the final one. -/
theorem repeat_on_error_retains_all_faults
    (attrCount attrDelay : Option Int) (defCount defDelay : Int)
    (op : Nat → AttemptOutcome) (F : Nat → Nat) (N : Nat)
    (hN : N = effective_attempt_count attrCount defCount)
    (hfail : ∀ i, i < N → op i = AttemptOutcome.exc (F i)) :
    (repeat_on_error_wrapped attrCount attrDelay defCount defDelay op).outcome =
      RetryOutcome.raisedExc ((List.range N).map F) ∧
    ((List.range N).map F).length = N := by
  subst hN
  have h1 := effective_attempt_count_pos attrCount defCount
  constructor
  · rw [repeat_on_error_wrapped_eq]
    have hall := recursively_invoke_func_all_fail op F
      (effective_attempt_count attrCount defCount - 1) 0
      (fun j hj => by rw [Nat.zero_add]; exact hfail j (by omega))
    rw [hall]
    have hN1 : effective_attempt_count attrCount defCount - 1 + 1 =
        effective_attempt_count attrCount defCount := by omega
    simp [hN1]
  · simp

/-- Witness for C4: three failing attempts with faults 100, 101, 102 surface
a terminal failure listing all three. -/
theorem repeat_on_error_retains_all_faults_witness :
    (repeat_on_error_wrapped (some 3) (some 0) 10 3
        (fun i => AttemptOutcome.exc (i + 100))).outcome =
      RetryOutcome.raisedExc [100, 101, 102] := by
  have h := (repeat_on_error_retains_all_faults (some 3) (some 0) 10 3
    (fun i => AttemptOutcome.exc (i + 100)) (fun i => i + 100) 3 (by decide)
    (fun i _ => rfl)).1
  exact h.trans (by decide)

/-- C5: a `KeyboardInterrupt` raised on attempt `k` propagates immediately:
the operation is invoked exactly `k` times (no additional attempts) and no
wait follows the interrupt (exactly the `k - 1` waits of the earlier failed
attempts occur), regardless of the remaining budget `N - k`. -/
theorem repeat_on_error_interrupt_propagates_immediately
    (attrCount attrDelay : Option Int) (defCount defDelay : Int)
    (op : Nat → AttemptOutcome) (k N : Nat)
    (hN : N = effective_attempt_count attrCount defCount)
    (hk : 1 ≤ k) (hkN : k ≤ N)
    (hfail : ∀ i, i < k - 1 → ∃ f, op i = AttemptOutcome.exc f)
    (hint : op (k - 1) = AttemptOutcome.interrupt) :
    repeat_on_error_wrapped attrCount attrDelay defCount defDelay op =
      ⟨k, k - 1, RetryOutcome.raisedInterrupt⟩ := by
  subst hN
  have h1 := effective_attempt_count_pos attrCount defCount
  rw [repeat_on_error_wrapped_eq]
  have hirec := recursively_invoke_func_interrupt_at op (k - 1)
    (effective_attempt_count attrCount defCount - 1) 0 (by omega)
    (fun j hj => by
      obtain ⟨f, hf⟩ := hfail j hj
      exact ⟨f, by rwa [Nat.zero_add]⟩)
    (by rwa [Nat.zero_add])
  rw [hirec, show k - 1 + 1 = k by omega]

/-- Witness for C5: an interrupt on the very first of 3 budgeted attempts
stops after exactly one call and zero waits. -/
theorem repeat_on_error_interrupt_propagates_immediately_witness :
    repeat_on_error_wrapped (some 3) (some 0) 10 3 (fun _ => AttemptOutcome.interrupt) =
      ⟨1, 0, RetryOutcome.raisedInterrupt⟩ := by
  have h := repeat_on_error_interrupt_propagates_immediately (some 3) (some 0) 10 3
    (fun _ => AttemptOutcome.interrupt) 1 3 (by decide) (by decide) (by decide)
    (fun i hi => absurd hi (by omega)) rfl
  exact h.trans (by decide)

/-- C6: the busy-wait drain returns only at an iteration where the live count
is zero and the overflow queue is empty (and at no earlier iteration was the
gate idle); when the gate becomes idle within the observed bound it does
return, by that iteration; and on an already-idle gate it returns immediately
(at iteration 0). -/
theorem wait_to_finish_returns_iff_all_complete {R : Type}
    (trace : Nat → DownloadQueue.GateState R) (fuel n m : Nat) :
    (DownloadQueue.wait_to_finish trace fuel = some n →
      ((trace n).liveCount = 0 ∧ (trace n).overflow_queue = []) ∧
      ∀ j, j < n → DownloadQueue.all_complete (trace j) = false) ∧
    (m < fuel → DownloadQueue.all_complete (trace m) = true →
      ∃ j, DownloadQueue.wait_to_finish trace fuel = some j ∧ j ≤ m) ∧
    (DownloadQueue.all_complete (trace 0) = true → 0 < fuel →
      DownloadQueue.wait_to_finish trace fuel = some 0) := by
  refine ⟨?_, ?_, ?_⟩
  · intro h
    obtain ⟨h1, _, h3⟩ := wait_to_finish_from_sound trace fuel 0 n h
    exact ⟨(all_complete_iff _).mp h1, fun j hj => h3 j (Nat.zero_le _) hj⟩
  · intro hm hc
    obtain ⟨j, hj, hle⟩ := wait_to_finish_from_complete trace fuel 0 m hm
      (by rwa [Nat.zero_add])
    exact ⟨j, hj, by omega⟩
  · intro hc hf
    cases fuel with
    | zero => omega
    | succ fuel =>
      simp [DownloadQueue.wait_to_finish, DownloadQueue.wait_to_finish_from, hc]

/-- Counterexample to C7: constructing a gate with capacity 0 (which is
less than 1) succeeds in both variants — no capacity-configuration error is
raised at construction time. -/
theorem capacity_zero_construction_succeeds :
    semaphore_queue_init 0 = Except.ok ⟨0, 0, 0, 0⟩ ∧
    legacy_queue_init Nat 0 = Except.ok (0, ⟨[], []⟩) :=
  ⟨rfl, rfl⟩

/-- C7 (amended): construction performs no capacity-lower-bound validation.
The legacy gate constructor succeeds for every capacity, and the
semaphore-based constructor succeeds exactly when the capacity is
non-negative, failing for a negative capacity with the standard semaphore's
`ValueError` rather than a dedicated capacity-configuration error; submission
itself has no gate-level raising path in the legacy gate (`add_or_queue` is
total). -/
theorem construction_performs_no_capacity_validation (c : Int) :
    legacy_queue_init Nat c = Except.ok (c, ⟨[], []⟩) ∧
    ((semaphore_queue_init c).isOk = true ↔ 0 ≤ c) := by
  refine ⟨rfl, ?_⟩
  unfold semaphore_queue_init
  by_cases hc : c < 0
  · rw [if_pos hc]
    have hf : (Except.error PyInitError.valueError :
        Except PyInitError SemaphoreQueueState).isOk = false := rfl
    rw [hf]
    simp
    omega
  · rw [if_neg hc]
    have ht : (Except.ok (SemaphoreQueueState.mk c 0 0 c.toNat) :
        Except PyInitError SemaphoreQueueState).isOk = true := rfl
    rw [ht]
    simp
    omega

end DQSpec
